import Mathlib

/-!
Verification development for the ebook summarizer / mindmap repository.

The definitions in this file are shallow embeddings of the repository's
source: the Gemini integration layer (validator, rate limiter, retry
helper, cost logging), the frontend axios retry logic, the frontend
error classification tables, and the Zustand document store actions.
Machine integers are modelled as `Nat`/`Int`, monetary amounts as `ℚ`,
and fallible code as `Except`/`Option`.
-/

namespace Mindmap

mutual
/--
A JSON object as consumed by the mindmap validators
(`_validate_mindmap_structure` in the Gemini contract and
`validate_node` in the data model).  A node is a dict with a `title`
field and a `children` field.  `title = some s` models a `title` field
present and holding the string `s`; `title = none` models a `title`
field that is missing or not a string (the validators treat those two
cases identically).  Likewise `children = some cs` models a `children`
field holding a JSON array, and `children = none` a missing or
non-array `children` field.  A dedicated list type is used so that all
recursion is structural.
-/
inductive RNode : Type where
  | mk (title : Option String) (children : Option RNodeList)
  deriving Repr

/-- Lists of mindmap nodes (a JSON array of child objects). -/
inductive RNodeList : Type where
  | nil
  | cons (hd : RNode) (tl : RNodeList)
  deriving Repr
end

/-- A `ValidationError(code, message)` raised by the validators. -/
structure VError where
  code : String
  msg : String
  deriving DecidableEq, Repr

/-- Number of elements of a children array (`len(obj["children"])`). -/
def RNodeList.length : RNodeList → Nat
  | .nil => 0
  | .cons _ tl => 1 + tl.length

/-- `n` copies of the same child node, used to build concrete test trees. -/
def RNodeList.replicate : Nat → RNode → RNodeList
  | 0, _ => .nil
  | n + 1, c => .cons c (RNodeList.replicate n c)

mutual
/-- Total number of nodes of a tree (children behind a missing or
non-array `children` field do not exist). -/
def RNode.count : RNode → Nat
  | .mk _ none => 1
  | .mk _ (some cs) => 1 + cs.count

def RNodeList.count : RNodeList → Nat
  | .nil => 0
  | .cons hd tl => hd.count + tl.count
end

mutual
/-- Depth of the deepest node of a tree, with the root at depth 0:
a single node has `deepDepth = 0`, a root with one leaf child has
`deepDepth = 1`. -/
def RNode.deepDepth : RNode → Nat
  | .mk _ none => 0
  | .mk _ (some .nil) => 0
  | .mk _ (some (.cons hd tl)) => 1 + RNodeList.deepDrop (RNodeList.cons hd tl)

/-- Maximum of the depths of the trees in the list (0 for an empty list). -/
def RNodeList.deepDrop : RNodeList → Nat
  | .nil => 0
  | .cons hd tl => max hd.deepDepth tl.deepDrop
end

mutual
/-- Every node of the tree has a `title` field holding a string, a
`children` field holding an array, and at most 100 direct children.
This is the shape discipline that the validators enforce apart from the
depth rule. -/
def RNode.shapeOk : RNode → Bool
  | .mk none _ => false
  | .mk (some _) none => false
  | .mk (some _) (some cs) => decide (cs.length ≤ 100) && cs.shapeOk

def RNodeList.shapeOk : RNodeList → Bool
  | .nil => true
  | .cons hd tl => hd.shapeOk && tl.shapeOk
end

mutual
/-- Some node of the tree has a missing or non-string `title` field. -/
def RNode.hasBadTitle : RNode → Bool
  | .mk none _ => true
  | .mk (some _) none => false
  | .mk (some _) (some cs) => cs.hasBadTitle

def RNodeList.hasBadTitle : RNodeList → Bool
  | .nil => false
  | .cons hd tl => hd.hasBadTitle || tl.hasBadTitle
end

mutual
/-- Some node of the tree has the empty string as its `title`. -/
def RNode.hasEmptyTitle : RNode → Bool
  | .mk none none => false
  | .mk (some t) none => decide (t = "")
  | .mk none (some cs) => cs.hasEmptyTitle
  | .mk (some t) (some cs) => decide (t = "") || cs.hasEmptyTitle

def RNodeList.hasEmptyTitle : RNodeList → Bool
  | .nil => false
  | .cons hd tl => hd.hasEmptyTitle || tl.hasEmptyTitle
end

mutual
/-- Model of `_validate_mindmap_structure(self, obj, depth=0)` from the Gemini API
integration contract: raises (returns `.error`)
`ValidationError("MINDMAP_TOO_DEEP", ...)` when `depth > 10`,
`ValidationError("INVALID_NODE", ...)` when the `title` field is missing
or not a string or the `children` field is missing or not a list,
`ValidationError("TOO_MANY_CHILDREN", ...)` when a node has more than
100 direct children, and otherwise recursively validates each child at
`depth + 1`.
-/
def validate_mindmap_structure : RNode → Nat → Except VError Unit
  | .mk title children, depth =>
    if depth > 10 then
      .error ⟨"MINDMAP_TOO_DEEP", "Max 10 hierarchy levels"⟩
    else match title with
    | none => .error ⟨"INVALID_NODE", "Missing or invalid 'title'"⟩
    | some _ =>
      match children with
      | none => .error ⟨"INVALID_NODE", "Missing or invalid 'children'"⟩
      | some cs =>
        if cs.length > 100 then
          .error ⟨"TOO_MANY_CHILDREN", "Max 100 children per node"⟩
        else
          validateChildrenStructure cs depth

/-- Model of the loop `for child in obj["children"]:
self._validate_mindmap_structure(child, depth + 1)`. -/
def validateChildrenStructure : RNodeList → Nat → Except VError Unit
  | .nil, _ => .ok ()
  | .cons hd tl, depth => do
    validate_mindmap_structure hd (depth + 1)
    validateChildrenStructure tl depth
end

mutual
/-- Model of `validate_node(node, depth=0)` from the data model's
`validate_mindmap_json`: raises `ValidationError("MAX_DEPTH_EXCEEDED",
"Mindmap too deep")` when `depth > 10`, `MISSING_TITLE` when the
`title` field is missing or not a string, `MISSING_CHILDREN` when the
`children` field is missing or not a list, `TOO_MANY_CHILDREN` when a
node has more than 100 direct children, and otherwise recursively
validates each child at `depth + 1`.
-/
def validate_node : RNode → Nat → Except VError Unit
  | .mk title children, depth =>
    if depth > 10 then
      .error ⟨"MAX_DEPTH_EXCEEDED", "Mindmap too deep"⟩
    else match title with
    | none => .error ⟨"MISSING_TITLE", "All nodes must have title"⟩
    | some _ =>
      match children with
      | none => .error ⟨"MISSING_CHILDREN", "All nodes must have children array"⟩
      | some cs =>
        if cs.length > 100 then
          .error ⟨"TOO_MANY_CHILDREN", "Max 100 children per node"⟩
        else
          validateNodeChildren cs depth

/-- Model of the loop `for child in node["children"]:
validate_node(child, depth + 1)`. -/
def validateNodeChildren : RNodeList → Nat → Except VError Unit
  | .nil, _ => .ok ()
  | .cons hd tl, depth => do
    validate_node hd (depth + 1)
    validateNodeChildren tl depth
end

/-- Entry point `validate_mindmap_json(json_obj)`: calls
`validate_node(json_obj)` with the default `depth=0`. -/
def validate_mindmap_json (obj : RNode) : Except VError Unit :=
  validate_node obj 0

/-- The depth error of `validate_node`. -/
def maxDepthErr : VError := ⟨"MAX_DEPTH_EXCEEDED", "Mindmap too deep"⟩

/-- The depth error of `_validate_mindmap_structure`. -/
def tooDeepErr : VError := ⟨"MINDMAP_TOO_DEEP", "Max 10 hierarchy levels"⟩

end Mindmap

namespace Mindmap

/-- A leaf test node. -/
def leafNode : RNode := .mk (some "leaf") (some .nil)

/-- A mid-level test node with 4 leaf children. -/
def midNode : RNode := .mk (some "mid") (some (RNodeList.replicate 4 leafNode))

/-- A tree with 501 total nodes (root, 100 children, 400 grandchildren),
depth 2, every title a non-empty string and every node within the
per-node fan-out limit. -/
def tree501 : RNode := .mk (some "root") (some (RNodeList.replicate 100 midNode))

/-- A chain of `k + 1` nodes: `chainNode k` has its deepest node at depth `k`. -/
def chainNode : Nat → RNode
  | 0 => .mk (some "node") (some .nil)
  | k + 1 => .mk (some "node") (some (.cons (chainNode k) .nil))

/-- A well-formed tree of depth 3 with 10 nodes. -/
def tree10 : RNode :=
  .mk (some "root") (some (.cons
    (.mk (some "A") (some (.cons
      (.mk (some "A1") (some (.cons (.mk (some "A1a") (some .nil))
        (.cons (.mk (some "A1b") (some .nil))
          (.cons (.mk (some "A1c") (some .nil)) .nil)))))
      (.cons (.mk (some "A2") (some .nil))
        (.cons (.mk (some "A3") (some .nil)) .nil)))))
    (.cons (.mk (some "B") (some .nil))
      (.cons (.mk (some "C") (some .nil)) .nil))))

/-- A tree whose root has the empty string as title. -/
def emptyTitleTree : RNode := .mk (some "") (some .nil)

end Mindmap

namespace Gemini

/-- Price per input token, `price_input = 0.00075 / 1000`
($0.75 per 1M tokens). -/
def price_input : ℚ := 0.00075 / 1000

/-- Price per output token, `price_output = 0.003 / 1000`
($3.00 per 1M tokens). -/
def price_output : ℚ := 0.003 / 1000

/-- Daily budget ceiling, `DAILY_BUDGET_LIMIT_USD=50.0` from the
configuration surface. -/
def DAILY_BUDGET_LIMIT : ℚ := 50.0

/-- One `APILog` row as constructed by `_log_api_call`. -/
structure APILog where
  operation : String
  tokens_input : Nat
  tokens_output : Nat
  cost_usd : ℚ
  latency_ms : Nat
  status : String
  document_id : Option Nat

/-- Model of `_calculate_daily_cost`: the sum of `cost_usd` over the
current day's log rows (the list holds the rows logged today). -/
def calculate_daily_cost (db : List APILog) : ℚ :=
  (db.map (fun e => e.cost_usd)).sum

/-- Model of `_log_api_call(operation, tokens_input, tokens_output,
latency_ms, status, document_id)`: computes
`cost_usd = tokens_input * price_input + tokens_output * price_output`,
appends the `APILog` row, then compares the daily cost against
`DAILY_BUDGET_LIMIT` — on exceedance it only emits a warning (returned
here as a `Bool` flag); it never blocks or fails the request. -/
def log_api_call (db : List APILog) (operation : String)
    (tokens_input tokens_output latency_ms : Nat) (status : String)
    (document_id : Option Nat) : List APILog × Bool :=
  let cost_usd : ℚ := tokens_input * price_input + tokens_output * price_output
  let db' := db ++ [⟨operation, tokens_input, tokens_output, cost_usd,
    latency_ms, status, document_id⟩]
  let daily_cost := calculate_daily_cost db'
  (db', decide (daily_cost > DAILY_BUDGET_LIMIT))

/-- A remote Gemini response: `response.text` plus token usage metadata. -/
structure RemoteResponse where
  text : String
  tokens_input : Nat
  tokens_output : Nat

/-- Model of Python's `str.strip()`: drop leading and trailing
whitespace. -/
def pyStrip (s : String) : String :=
  ⟨(((s.data.dropWhile Char.isWhitespace).reverse).dropWhile Char.isWhitespace).reverse⟩

/-- Model of `generate_summary`: builds the prompt, issues the remote
call unconditionally, strips the response text and raises
`GeminiAPIError` (modelled as the error message string) when it is
empty, otherwise returns the summary text. -/
def generate_summary (resp : RemoteResponse) : Except String String :=
  let summary_text := pyStrip resp.text
  if summary_text = "" then .error "Empty response from Gemini API"
  else .ok summary_text

/-- Outcome of one summarize request: the result, how many remote calls
were issued, the updated API log, and whether the post-call daily
budget warning fired. -/
structure SummarizeOutcome where
  result : Except String String
  remote_calls : Nat
  db : List APILog
  budget_warning : Bool

/-- One summarize request as the source defines it: the remote call is
issued (and counted) unconditionally — no part of the source checks the
budget before calling — and on success the call is logged via
`_log_api_call`, whose daily-budget comparison can at most raise a
warning flag. -/
def summarize_flow (db : List APILog) (resp : RemoteResponse)
    (latency_ms : Nat) (document_id : Option Nat) : SummarizeOutcome :=
  let remote_calls := 1
  match generate_summary resp with
  | .ok text =>
    let logged := log_api_call db "summary" resp.tokens_input
      resp.tokens_output latency_ms "success" document_id
    ⟨.ok text, remote_calls, logged.1, logged.2⟩
  | .error e => ⟨.error e, remote_calls, db, false⟩

/-- A log state whose daily cost (60 USD) already exceeds the 50 USD
daily budget limit. -/
def db_over_budget : List APILog :=
  [⟨"summary", 40000000, 10000000, 60, 1200, "success", some 1⟩]

/-- A non-empty remote response used to exercise the summarize flow. -/
def okResponse : RemoteResponse := ⟨"• a\n• b\n• c", 1000, 500⟩

end Gemini

namespace Retry

/-- Python-level exceptions seen by `retry_with_backoff`: the two
retryable ones named in its `except` clause, the explicit
`NonRetryableError`, and `GeminiAPIError` (raised by the service code
itself, and by the retry helper once retries are exhausted).  Each
carries its message (`str(e)`). -/
inductive PyErr : Type where
  | timeoutError (msg : String)
  | rateLimitError (msg : String)
  | nonRetryableError (msg : String)
  | geminiAPIError (msg : String)
  deriving DecidableEq, Repr

/-- String rendering `str(e)` of an exception. -/
def pyStr : PyErr → String
  | .timeoutError m => m
  | .rateLimitError m => m
  | .nonRetryableError m => m
  | .geminiAPIError m => m

/-- Exceptions caught by `except (TimeoutError, RateLimitError)`. -/
def caughtRetryable : PyErr → Bool
  | .timeoutError _ => true
  | .rateLimitError _ => true
  | _ => false

/-- Kind (constructor) of an exception, for comparing error kinds. -/
def errKind : PyErr → String
  | .timeoutError _ => "TimeoutError"
  | .rateLimitError _ => "RateLimitError"
  | .nonRetryableError _ => "NonRetryableError"
  | .geminiAPIError _ => "GeminiAPIError"

/-- Default `base_delay` of `retry_with_backoff` (seconds). -/
def base_delay : ℚ := 1

/-- Model of the loop body of `retry_with_backoff(func, max_retries=3,
base_delay=1.0)`, iterating over the remaining attempt indices of
`range(max_retries)`.  `func` is the remote operation, modelled as a
map from the attempt index to its outcome; `jitter a` models the
`random.uniform(0, 1)` sample drawn before the sleep that follows a
failed attempt `a`.  Returns `none` when the loop runs out of attempts
without returning (Python falls through and returns `None`; unreachable
for `max_retries ≥ 1`), and the list of backoff delays slept. -/
def retryLoop (func : Nat → Except PyErr String) (max_retries : Nat)
    (jitter : Nat → ℚ) : List Nat → Option (Except PyErr String) × List ℚ
  | [] => (none, [])
  | attempt :: rest =>
    match func attempt with
    | .ok v => (some (.ok v), [])
    | .error e =>
      if caughtRetryable e then
        if attempt = max_retries - 1 then
          (some (.error (.geminiAPIError
            ("Failed after " ++ toString max_retries ++ " retries: " ++ pyStr e))), [])
        else
          let delay := base_delay * 2 ^ attempt + jitter attempt
          let next := retryLoop func max_retries jitter rest
          (next.1, delay :: next.2)
      else
        (some (.error e), [])

/-- Model of `retry_with_backoff(func, max_retries, base_delay=1.0)`:
runs the loop over `range(max_retries)`. -/
def retry_with_backoff (func : Nat → Except PyErr String) (max_retries : Nat)
    (jitter : Nat → ℚ) : Option (Except PyErr String) × List ℚ :=
  retryLoop func max_retries jitter (List.range max_retries)

/-- A remote operation that fails on every attempt with a rate-limit
error (HTTP 429). -/
def alwaysRateLimited : Nat → Except PyErr String :=
  fun _ => .error (.rateLimitError "429")

end Retry

namespace Front

/-- Error codes of the frontend `ErrorCode` enum
(`frontend/lib/types/api.ts`). -/
inductive ErrorCode : Type where
  | INVALID_PDF
  | FILE_TOO_LARGE
  | UNSUPPORTED_FILE_TYPE
  | FILE_CORRUPTED
  | FILE_NOT_FOUND
  | DUPLICATE_FILE
  | RATE_LIMITED
  | TIMEOUT
  | API_ERROR
  | AUTH_ERROR
  | QUOTA_EXCEEDED
  | DB_ERROR
  | DB_CONNECTION_ERROR
  | DB_TRANSACTION_ERROR
  | RECORD_NOT_FOUND
  | DUPLICATE_RECORD
  | PARSING_ERROR
  | GENERATION_ERROR
  | VALIDATION_ERROR
  | PROCESSING_TIMEOUT
  | DOCUMENT_NOT_READY
  | INVALID_STATE
  | OPERATION_NOT_ALLOWED
  | INTERNAL_ERROR
  | UNKNOWN_ERROR
  | CONFIGURATION_ERROR
  | NETWORK_ERROR
  deriving DecidableEq, Repr

/-- Retryable error codes listed inside `isRetryableError`. -/
def retryableErrors : List ErrorCode :=
  [.NETWORK_ERROR, .TIMEOUT, .RATE_LIMITED, .DB_CONNECTION_ERROR, .API_ERROR]

/-- Model of `isRetryableError(errorCode)` from the error
transformation utilities: membership in `retryableErrors`. -/
def isRetryableError (errorCode : ErrorCode) : Bool :=
  retryableErrors.contains errorCode

/-- One value of the error formatter's `ERROR_MESSAGES` record:
a title, a user-facing message and a retryability flag. -/
structure MessageEntry where
  title : String
  message : String
  retryable : Bool
  deriving DecidableEq, Repr

/-- Model of the error formatter's `ERROR_MESSAGES` record (its
`isRetryable` field is `retryable` here).  `none` for `NETWORK_ERROR`,
which has no entry in that record (network errors are special-cased by
`formatError` before the lookup). -/
def ERROR_MESSAGES : ErrorCode → Option MessageEntry
  | .INVALID_PDF => some ⟨"Invalid File", "The uploaded file is not a valid PDF", false⟩
  | .FILE_TOO_LARGE => some ⟨"File Too Large", "File size exceeds 100MB limit", false⟩
  | .UNSUPPORTED_FILE_TYPE => some ⟨"Unsupported File Type", "Please upload a PDF file", false⟩
  | .FILE_CORRUPTED => some ⟨"Corrupted File", "The uploaded file appears to be corrupted", false⟩
  | .FILE_NOT_FOUND => some ⟨"File Not Found", "The requested file was not found", false⟩
  | .DUPLICATE_FILE => some ⟨"Duplicate File", "This file has already been uploaded", false⟩
  | .RATE_LIMITED => some ⟨"Too Many Requests", "Too many requests, please try again later", true⟩
  | .TIMEOUT => some ⟨"Request Timeout", "Request timed out, please try again", true⟩
  | .API_ERROR => some ⟨"API Error", "An error occurred while communicating with the server", true⟩
  | .AUTH_ERROR => some ⟨"Authentication Error", "Authentication failed, please sign in again", false⟩
  | .QUOTA_EXCEEDED => some ⟨"Quota Exceeded", "Your usage quota has been exceeded", false⟩
  | .DB_ERROR => some ⟨"Database Error", "A database error occurred, please try again", true⟩
  | .DB_CONNECTION_ERROR => some ⟨"Connection Error", "Failed to connect to the database", true⟩
  | .DB_TRANSACTION_ERROR => some ⟨"Transaction Error", "A database transaction error occurred", true⟩
  | .RECORD_NOT_FOUND => some ⟨"Not Found", "The requested record was not found", false⟩
  | .DUPLICATE_RECORD => some ⟨"Duplicate Record", "A record with this information already exists", false⟩
  | .PARSING_ERROR => some ⟨"Parsing Error", "Failed to parse the document", false⟩
  | .GENERATION_ERROR => some ⟨"Generation Error", "Failed to generate content", true⟩
  | .VALIDATION_ERROR => some ⟨"Validation Error", "The provided data is invalid", false⟩
  | .PROCESSING_TIMEOUT => some ⟨"Processing Timeout", "Processing took too long, please try again", true⟩
  | .DOCUMENT_NOT_READY => some ⟨"Document Not Ready", "The document is still being processed", true⟩
  | .INVALID_STATE => some ⟨"Invalid State", "The operation cannot be performed in the current state", false⟩
  | .OPERATION_NOT_ALLOWED => some ⟨"Operation Not Allowed", "This operation is not allowed", false⟩
  | .INTERNAL_ERROR => some ⟨"Internal Error", "An internal error occurred, please try again", true⟩
  | .UNKNOWN_ERROR => some ⟨"Unknown Error", "An unknown error occurred, please try again", true⟩
  | .CONFIGURATION_ERROR => some ⟨"Configuration Error", "A configuration error occurred", false⟩
  | .NETWORK_ERROR => none

end Front

namespace Front

/-- An `ApiError` as seen by the axios response interceptor: the code,
the message, and the `isRetryable` flag attached when the error was
transformed. -/
structure ApiError where
  errorCode : ErrorCode
  message : String
  isRetryable : Bool
  deriving DecidableEq, Repr

/-- Retry bookkeeping `_retry = { retries, retryDelay }` attached to a
request config. -/
structure RetryConfig where
  retries : Nat
  retryDelay : ℚ
  deriving DecidableEq, Repr

/-- `config.maxRetries = 3`. -/
def maxRetries : Nat := 3

/-- Initial `_retry` state installed by the request interceptor:
`{ retries: 0, retryDelay: config.retryDelay }` with
`config.retryDelay = 1000` milliseconds. -/
def initialRetryConfig : RetryConfig := ⟨0, 1000⟩

/-- Model of `shouldRetry(requestConfig, error)`: no `_retry` config →
false; `retries >= config.maxRetries` → false; otherwise the error's
`isRetryable` flag. -/
def shouldRetry (retryCfg : Option RetryConfig) (error : ApiError) : Bool :=
  match retryCfg with
  | none => false
  | some rc =>
    if maxRetries ≤ rc.retries then false
    else error.isRetryable

/-- Backoff delay computed by `retryRequest` after it increments the
counter: `_retry.retryDelay * Math.pow(2, _retry.retries - 1)`. -/
def retryRequestDelay (rc : RetryConfig) : ℚ :=
  rc.retryDelay * 2 ^ (rc.retries - 1)

/-- Model of the response interceptor's retry loop.  `respond k` is the
outcome of issuing the request while the retry counter is `k`.  On
failure the interceptor either retries via `retryRequest` — increment
the counter, sleep the exponential-backoff delay, re-issue — when
`shouldRetry` allows it, or rejects with the transformed error of this
last failure.  `fuel` bounds the recursion; since `shouldRetry` refuses
once `retries ≥ maxRetries`, any `fuel ≥ maxRetries - rc.retries`
(and the fuel-exhausted branch, which rejects with the same error as
the no-retry branch) reproduces the loop exactly.  Returns the final
result and the list of delays slept. -/
def runRequest (respond : Nat → Except ApiError String) :
    Nat → RetryConfig → Except ApiError String × List ℚ
  | fuel, rc =>
    match respond rc.retries with
    | .ok v => (.ok v, [])
    | .error e =>
      if shouldRetry (some rc) e then
        match fuel with
        | 0 => (.error e, [])
        | f + 1 =>
          let rc' : RetryConfig := ⟨rc.retries + 1, rc.retryDelay⟩
          let next := runRequest respond f rc'
          (next.1, retryRequestDelay rc' :: next.2)
      else (.error e, [])

/-- A request that fails every attempt with a retryable rate-limit
error. -/
def alwaysRateLimitedReq : Nat → Except ApiError String :=
  fun _ => .error ⟨.RATE_LIMITED, "Too many requests, please try again later", true⟩

end Front

namespace RateLimiter

/-- Model of the pruning statement of `RateLimiter.acquire`:
`self.request_times = [t for t in self.request_times if now - t < 60]`.
Timestamps are rationals (seconds). -/
def prune (request_times : List ℚ) (now : ℚ) : List ℚ :=
  request_times.filter (fun t => decide (now - t < 60))

/-- Model of one `acquire()` call at wall-clock time `now` against the
recorded `request_times`: prune expired timestamps; if still at
capacity (`len(self.request_times) >= self.rpm`), sleep
`wait_time = 60 - (now - self.request_times[0])`; finally append the
post-sleep current time (`time.time()`).  Returns the appended grant
time and the new state. -/
def acquire (rpm : Nat) (request_times : List ℚ) (now : ℚ) : ℚ × List ℚ :=
  let pruned := prune request_times now
  if rpm ≤ pruned.length then
    let wait_time := 60 - (now - pruned.headD 0)
    (now + wait_time, pruned ++ [now + wait_time])
  else
    (now, pruned ++ [now])

/-- Grant times produced by a sequence of `acquire` calls executed one
after the other, starting from state `request_times`. -/
def runAcquires (rpm : Nat) (request_times : List ℚ) : List ℚ → List ℚ
  | [] => []
  | now :: rest =>
    (acquire rpm request_times now).1 ::
      runAcquires rpm (acquire rpm request_times now).2 rest

/-- Sequential admissibility of a list of call times: each call is
issued no earlier than the completion (grant time) of the previous
`acquire`, whose state it then observes. -/
def admissibleFrom (rpm : Nat) (request_times : List ℚ) (lastDone : ℚ) :
    List ℚ → Bool
  | [] => true
  | now :: rest =>
    decide (lastDone ≤ now) &&
      admissibleFrom rpm (acquire rpm request_times now).2
        (acquire rpm request_times now).1 rest

/-- Admissibility of a fresh run: the first call anchors the clock. -/
def admissible (rpm : Nat) (calls : List ℚ) : Bool :=
  match calls with
  | [] => true
  | now :: _ => admissibleFrom rpm [] now calls

/-- Number of grants falling inside the half-open window `(t - 60, t]`. -/
def countInWindow (grants : List ℚ) (t : ℚ) : Nat :=
  (grants.filter (fun x => decide (t - 60 < x) && decide (x ≤ t))).length

/-- Invariant tying the limiter state to the full grant history
during a sequential run: the state is sorted and bounded by the last
grant time, the history equals expired-and-dropped timestamps followed
by the state, and no 60-second window of the history holds more than
`rpm` grants. -/
def Inv (rpm : Nat) (st G : List ℚ) (tdone : ℚ) : Prop :=
  st.Sorted (· ≤ ·) ∧
  (∀ x ∈ st, x ≤ tdone) ∧
  (∃ dropped, G = dropped ++ st ∧ ∀ x ∈ dropped, x ≤ tdone - 60) ∧
  (∀ t, countInWindow G t ≤ rpm)

end RateLimiter

namespace Store

/-- Upload status enum (`uploading | parsing | ready | failed`). -/
inductive UploadStatus : Type where
  | uploading | parsing | ready | failed
  deriving DecidableEq, Repr

/-- Generation status enum (`queued | generating | complete | failed`). -/
inductive GenerationStatus : Type where
  | queued | generating | complete | failed
  deriving DecidableEq, Repr

/-- Summary entity of the store (matches the backend Summary model). -/
structure Summary where
  id : Int
  document_id : Int
  summary_text : String
  generation_status : GenerationStatus
  error_message : Option String
  tokens_input : Int
  tokens_output : Int
  latency_ms : Int
  created_at : String
  updated_at : String

/-- Mindmap node structure of the store (`title`, optional `children`). -/
inductive StoreMindmapNode : Type where
  | mk (title : String) (children : Option (List StoreMindmapNode))

/-- Mindmap entity of the store (matches the backend Mindmap model). -/
structure MindmapEntity where
  id : Int
  document_id : Int
  mindmap_json : StoreMindmapNode
  generation_status : GenerationStatus
  error_message : Option String
  tokens_input : Int
  tokens_output : Int
  latency_ms : Int
  created_at : String
  updated_at : String

/-- PDF metadata extracted from a document. -/
structure PDFMetadata where
  author : Option String
  creation_date : Option String
  title : Option String
  subject : Option String

/-- Document entity of the store (matches the backend Document model). -/
structure Document where
  id : Int
  user_id : Int
  filename : String
  file_path : String
  file_size_bytes : Int
  file_hash : String
  page_count : Option Int
  extracted_text : Option String
  pdf_metadata : Option PDFMetadata
  upload_status : UploadStatus
  error_message : Option String
  created_at : String
  updated_at : String
  expires_at : String
  summary : Option Summary
  mindmap : Option MindmapEntity

/-- Loading flags of the store. -/
structure LoadingStates where
  documents : Bool
  upload : Bool
  summary : Bool
  mindmap : Bool

/-- Error strings of the store. -/
structure ErrorStates where
  documents : Option String
  upload : Option String
  summary : Option String
  mindmap : Option String

/-- Data portion of the Zustand `DocumentState`. -/
structure DocumentState where
  documents : List Document
  currentDocument : Option Document
  loading : LoadingStates
  errors : ErrorStates

/-- Model of the `deleteDocument(id)` action:
`documents` becomes `state.documents.filter((doc) => doc.id !== id)` and
`currentDocument` becomes `null` when `state.currentDocument?.id === id`
and is otherwise left as it was. -/
def deleteDocument (state : DocumentState) (id : Int) : DocumentState :=
  { state with
    documents := state.documents.filter (fun doc => doc.id != id),
    currentDocument :=
      match state.currentDocument with
      | some c => if c.id = id then none else some c
      | none => none }

/-- A sample document with a given id. -/
def sampleDoc (i : Int) : Document :=
  ⟨i, 1, "file.pdf", "/files/file.pdf", 1024, "hash", some 3, some "text",
    none, .ready, none, "2025-11-10", "2025-11-10", "2025-11-17", none, none⟩

/-- A sample store state holding two documents, the first being current. -/
def sampleState : DocumentState :=
  ⟨[sampleDoc 1, sampleDoc 2], some (sampleDoc 1),
    ⟨false, false, false, false⟩, ⟨none, none, none, none⟩⟩

end Store

-- ## Theorems ------------------------------------------------------------

namespace Mindmap

mutual
/-- When `validate_node` accepts, every node lies at depth at most 10. -/
theorem validate_node_depth_sound : ∀ (t : RNode) (d : Nat),
    validate_node t d = .ok () → d + t.deepDepth ≤ 10
  | .mk title children, d, h => by
    simp only [validate_node.eq_def] at h
    by_cases hd : d > 10
    · simp [hd] at h
    · simp only [if_neg hd] at h
      match title with
      | none => simp at h
      | some _ =>
        match children with
        | none => simp at h
        | some .nil => simpa [RNode.deepDepth] using Nat.le_of_not_lt hd
        | some (.cons c cs) =>
          by_cases hlen : RNodeList.length (.cons c cs) > 100
          · simp [hlen] at h
          · simp only [if_neg hlen] at h
            have h2 := (validateNodeChildren_depth_sound (.cons c cs) d h).resolve_left
              (by simp)
            simp only [RNode.deepDepth]
            omega

/-- When the loop over a nonempty children list accepts, every child
subtree stays within depth 10. -/
theorem validateNodeChildren_depth_sound : ∀ (l : RNodeList) (d : Nat),
    validateNodeChildren l d = .ok () →
    l = .nil ∨ d + 1 + l.deepDrop ≤ 10
  | .nil, _, _ => Or.inl rfl
  | .cons hd tl, d, h => by
    rw [validateNodeChildren] at h
    cases hh : validate_node hd (d + 1) with
    | error e => simp [hh, Bind.bind, Except.bind] at h
    | ok u =>
      cases u
      simp only [hh, Bind.bind, Except.bind] at h
      have h1 := validate_node_depth_sound hd (d + 1) hh
      have h2 := validateNodeChildren_depth_sound tl d h
      have htl : d + 1 + tl.deepDrop ≤ 10 := by
        rcases h2 with h2 | h2
        · subst h2
          simp only [RNodeList.deepDrop]
          omega
        · exact h2
      right
      simp only [RNodeList.deepDrop]
      rcases Nat.le_total hd.deepDepth tl.deepDrop with hmax | hmax
      · rw [Nat.max_eq_right hmax]; omega
      · rw [Nat.max_eq_left hmax]; omega
end

mutual
/-- When `_validate_mindmap_structure` accepts, every node has a
present, string-valued `title` field. -/
theorem validate_structure_title_sound : ∀ (t : RNode) (d : Nat),
    validate_mindmap_structure t d = .ok () → t.hasBadTitle = false
  | .mk title children, d, h => by
    simp only [validate_mindmap_structure.eq_def] at h
    by_cases hd : d > 10
    · simp [hd] at h
    · simp only [if_neg hd] at h
      match title with
      | none => simp at h
      | some _ =>
        match children with
        | none => simp at h
        | some cs =>
          by_cases hlen : cs.length > 100
          · simp [hlen] at h
          · simp only [if_neg hlen] at h
            simpa [RNode.hasBadTitle] using
              validateChildrenStructure_title_sound cs d h

/-- List version of `validate_structure_title_sound`. -/
theorem validateChildrenStructure_title_sound : ∀ (l : RNodeList) (d : Nat),
    validateChildrenStructure l d = .ok () → l.hasBadTitle = false
  | .nil, _, _ => rfl
  | .cons hd tl, d, h => by
    rw [validateChildrenStructure] at h
    cases hh : validate_mindmap_structure hd (d + 1) with
    | error e => simp [hh, Bind.bind, Except.bind] at h
    | ok u =>
      cases u
      simp only [hh, Bind.bind, Except.bind] at h
      simp [RNodeList.hasBadTitle,
        validate_structure_title_sound hd (d + 1) hh,
        validateChildrenStructure_title_sound tl d h]
end

mutual
/-- When `_validate_mindmap_structure` accepts, every node lies at
depth at most 10. -/
theorem validate_structure_depth_sound : ∀ (t : RNode) (d : Nat),
    validate_mindmap_structure t d = .ok () → d + t.deepDepth ≤ 10
  | .mk title children, d, h => by
    simp only [validate_mindmap_structure.eq_def] at h
    by_cases hd : d > 10
    · simp [hd] at h
    · simp only [if_neg hd] at h
      match title with
      | none => simp at h
      | some _ =>
        match children with
        | none => simp at h
        | some .nil => simpa [RNode.deepDepth] using Nat.le_of_not_lt hd
        | some (.cons c cs) =>
          by_cases hlen : RNodeList.length (.cons c cs) > 100
          · simp [hlen] at h
          · simp only [if_neg hlen] at h
            have h2 := (validateChildrenStructure_depth_sound (.cons c cs) d h).resolve_left
              (by simp)
            simp only [RNode.deepDepth]
            omega

/-- List version of `validate_structure_depth_sound`. -/
theorem validateChildrenStructure_depth_sound : ∀ (l : RNodeList) (d : Nat),
    validateChildrenStructure l d = .ok () →
    l = .nil ∨ d + 1 + l.deepDrop ≤ 10
  | .nil, _, _ => Or.inl rfl
  | .cons hd tl, d, h => by
    rw [validateChildrenStructure] at h
    cases hh : validate_mindmap_structure hd (d + 1) with
    | error e => simp [hh, Bind.bind, Except.bind] at h
    | ok u =>
      cases u
      simp only [hh, Bind.bind, Except.bind] at h
      have h1 := validate_structure_depth_sound hd (d + 1) hh
      have h2 := validateChildrenStructure_depth_sound tl d h
      have htl : d + 1 + tl.deepDrop ≤ 10 := by
        rcases h2 with h2 | h2
        · subst h2
          simp only [RNodeList.deepDrop]
          omega
        · exact h2
      right
      simp only [RNodeList.deepDrop]
      rcases Nat.le_total hd.deepDepth tl.deepDrop with hmax | hmax
      · rw [Nat.max_eq_right hmax]; omega
      · rw [Nat.max_eq_left hmax]; omega
end

mutual
/-- When `validate_node` accepts, every node has a present,
string-valued `title` field. -/
theorem validate_node_title_sound : ∀ (t : RNode) (d : Nat),
    validate_node t d = .ok () → t.hasBadTitle = false
  | .mk title children, d, h => by
    simp only [validate_node.eq_def] at h
    by_cases hd : d > 10
    · simp [hd] at h
    · simp only [if_neg hd] at h
      match title with
      | none => simp at h
      | some _ =>
        match children with
        | none => simp at h
        | some cs =>
          by_cases hlen : cs.length > 100
          · simp [hlen] at h
          · simp only [if_neg hlen] at h
            simpa [RNode.hasBadTitle] using
              validateNodeChildren_title_sound cs d h

/-- List version of `validate_node_title_sound`. -/
theorem validateNodeChildren_title_sound : ∀ (l : RNodeList) (d : Nat),
    validateNodeChildren l d = .ok () → l.hasBadTitle = false
  | .nil, _, _ => rfl
  | .cons hd tl, d, h => by
    rw [validateNodeChildren] at h
    cases hh : validate_node hd (d + 1) with
    | error e => simp [hh, Bind.bind, Except.bind] at h
    | ok u =>
      cases u
      simp only [hh, Bind.bind, Except.bind] at h
      simp [RNodeList.hasBadTitle,
        validate_node_title_sound hd (d + 1) hh,
        validateNodeChildren_title_sound tl d h]
end

mutual
/-- Shape-valid trees within the depth budget are accepted by `validate_node`. -/
theorem validate_node_ok_of_shape : ∀ (t : RNode) (d : Nat),
    t.shapeOk = true → d + t.deepDepth ≤ 10 → validate_node t d = .ok ()
  | .mk none _, _, hs, _ => by simp [RNode.shapeOk] at hs
  | .mk (some _) none, _, hs, _ => by simp [RNode.shapeOk] at hs
  | .mk (some s) (some cs), d, hs, hle => by
    simp only [RNode.shapeOk, Bool.and_eq_true, decide_eq_true_eq] at hs
    have hd : ¬ d > 10 := by
      have : (RNode.mk (some s) (some cs)).deepDepth = (RNode.mk (some s) (some cs)).deepDepth := rfl
      omega
    simp only [validate_node.eq_def, if_neg hd, if_neg (not_lt.mpr hs.1)]
    exact validateNodeChildren_ok_of_shape cs d hs.2 (by
      cases cs with
      | nil => exact Or.inl rfl
      | cons c cs' =>
        right
        simp only [RNode.deepDepth] at hle
        omega)

/-- List version of `validate_node_ok_of_shape`. -/
theorem validateNodeChildren_ok_of_shape : ∀ (l : RNodeList) (d : Nat),
    l.shapeOk = true → (l = .nil ∨ d + 1 + l.deepDrop ≤ 10) →
    validateNodeChildren l d = .ok ()
  | .nil, _, _, _ => rfl
  | .cons hd tl, d, hs, hdep => by
    have hdep' : d + 1 + RNodeList.deepDrop (.cons hd tl) ≤ 10 :=
      hdep.resolve_left (by simp)
    simp only [RNodeList.shapeOk, Bool.and_eq_true] at hs
    simp only [RNodeList.deepDrop] at hdep'
    have hmax := Nat.le_max_left hd.deepDepth tl.deepDrop
    have hmax2 := Nat.le_max_right hd.deepDepth tl.deepDrop
    have h1 : validate_node hd (d + 1) = .ok () :=
      validate_node_ok_of_shape hd (d + 1) hs.1 (by omega)
    have h2 : validateNodeChildren tl d = .ok () :=
      validateNodeChildren_ok_of_shape tl d hs.2 (Or.inr (by omega))
    rw [validateNodeChildren]
    simp [h1, h2, Bind.bind, Except.bind]
end

mutual
/-- Shape-valid trees within the depth budget are accepted by
`_validate_mindmap_structure`. -/
theorem validate_structure_ok_of_shape : ∀ (t : RNode) (d : Nat),
    t.shapeOk = true → d + t.deepDepth ≤ 10 → validate_mindmap_structure t d = .ok ()
  | .mk none _, _, hs, _ => by simp [RNode.shapeOk] at hs
  | .mk (some _) none, _, hs, _ => by simp [RNode.shapeOk] at hs
  | .mk (some s) (some cs), d, hs, hle => by
    simp only [RNode.shapeOk, Bool.and_eq_true, decide_eq_true_eq] at hs
    have hd : ¬ d > 10 := by omega
    simp only [validate_mindmap_structure.eq_def, if_neg hd, if_neg (not_lt.mpr hs.1)]
    exact validateChildrenStructure_ok_of_shape cs d hs.2 (by
      cases cs with
      | nil => exact Or.inl rfl
      | cons c cs' =>
        right
        simp only [RNode.deepDepth] at hle
        omega)

/-- List version of `validate_structure_ok_of_shape`. -/
theorem validateChildrenStructure_ok_of_shape : ∀ (l : RNodeList) (d : Nat),
    l.shapeOk = true → (l = .nil ∨ d + 1 + l.deepDrop ≤ 10) →
    validateChildrenStructure l d = .ok ()
  | .nil, _, _, _ => rfl
  | .cons hd tl, d, hs, hdep => by
    have hdep' : d + 1 + RNodeList.deepDrop (.cons hd tl) ≤ 10 :=
      hdep.resolve_left (by simp)
    simp only [RNodeList.shapeOk, Bool.and_eq_true] at hs
    simp only [RNodeList.deepDrop] at hdep'
    have hmax := Nat.le_max_left hd.deepDepth tl.deepDrop
    have hmax2 := Nat.le_max_right hd.deepDepth tl.deepDrop
    have h1 : validate_mindmap_structure hd (d + 1) = .ok () :=
      validate_structure_ok_of_shape hd (d + 1) hs.1 (by omega)
    have h2 : validateChildrenStructure tl d = .ok () :=
      validateChildrenStructure_ok_of_shape tl d hs.2 (Or.inr (by omega))
    rw [validateChildrenStructure]
    simp [h1, h2, Bind.bind, Except.bind]
end

mutual
/-- Shape-valid trees deeper than the budget are rejected by
`validate_node` with exactly the `MAX_DEPTH_EXCEEDED` error. -/
theorem validate_node_deep_err : ∀ (t : RNode) (d : Nat),
    t.shapeOk = true → 11 ≤ d + t.deepDepth → validate_node t d = .error maxDepthErr
  | .mk none _, _, hs, _ => by simp [RNode.shapeOk] at hs
  | .mk (some _) none, _, hs, _ => by simp [RNode.shapeOk] at hs
  | .mk (some s) (some cs), d, hs, hge => by
    simp only [RNode.shapeOk, Bool.and_eq_true, decide_eq_true_eq] at hs
    by_cases hd : d > 10
    · simp [validate_node.eq_def, hd, maxDepthErr]
    · simp only [validate_node.eq_def, if_neg hd, if_neg (not_lt.mpr hs.1)]
      cases cs with
      | nil =>
        simp only [RNode.deepDepth] at hge
        omega
      | cons c cs' =>
        simp only [RNode.deepDepth, RNodeList.deepDrop] at hge
        exact validateNodeChildren_deep_err (.cons c cs') d hs.2 (by simp)
          (by simp only [RNodeList.deepDrop]; omega)

/-- List version of `validate_node_deep_err`. -/
theorem validateNodeChildren_deep_err : ∀ (l : RNodeList) (d : Nat),
    l.shapeOk = true → l ≠ .nil → 11 ≤ d + 1 + l.deepDrop →
    validateNodeChildren l d = .error maxDepthErr
  | .nil, _, _, hne, _ => absurd rfl hne
  | .cons hd tl, d, hs, _, hge => by
    simp only [RNodeList.shapeOk, Bool.and_eq_true] at hs
    simp only [RNodeList.deepDrop] at hge
    rw [validateNodeChildren]
    by_cases h1 : 11 ≤ (d + 1) + hd.deepDepth
    · have he := validate_node_deep_err hd (d + 1) hs.1 h1
      simp [he, Bind.bind, Except.bind]
    · have hok := validate_node_ok_of_shape hd (d + 1) hs.1 (by omega)
      cases tl with
      | nil =>
        simp only [RNodeList.deepDrop] at hge
        rcases max_choice hd.deepDepth (0 : Nat) with hm | hm <;> rw [hm] at hge <;> omega
      | cons a b =>
        have hm2 : 11 ≤ d + 1 + RNodeList.deepDrop (.cons a b) := by
          rcases max_choice hd.deepDepth (RNodeList.deepDrop (.cons a b)) with hm | hm <;>
            rw [hm] at hge
          · omega
          · omega
        have h2 := validateNodeChildren_deep_err (.cons a b) d hs.2 (by simp) hm2
        simp [hok, h2, Bind.bind, Except.bind]
end

end Mindmap

set_option maxRecDepth 40000 in
/-- C2: the spec claims every mindmap tree with more than 500 total
nodes is rejected with `TOTAL_NODES_EXCEEDED` by a running counter
threaded through the recursion.  No such check exists in the code: this
theorem evaluates both validators at `tree501`, a tree with 501 total
nodes in which every node satisfies the depth and per-node children
limits, and both accept it (the contract's own text demands "Max 500
total nodes"). -/
theorem validators_accept_501_node_tree :
    Mindmap.RNode.count Mindmap.tree501 = 501 ∧
    Mindmap.tree501.shapeOk = true ∧
    Mindmap.tree501.deepDepth = 2 ∧
    Mindmap.validate_mindmap_structure Mindmap.tree501 0 = .ok () ∧
    Mindmap.validate_mindmap_json Mindmap.tree501 = .ok () :=
  ⟨rfl, rfl, rfl, rfl, rfl⟩

/-- C3: the structure validator, called as `Validate(root, depth=0)`,
rejects every tree of depth 11 — and, when the tree is otherwise
shape-valid, rejects it with exactly the `MAX_DEPTH_EXCEEDED` error —
and accepts every well-formed tree of depth 3 with 10 nodes.  Stated
for `validate_mindmap_json` (whose depth error is literally
`MAX_DEPTH_EXCEEDED`); the rejection and acceptance parts are also
proved for the contract's `_validate_mindmap_structure`. -/
theorem validator_depth_rule (t : Mindmap.RNode) :
    (11 ≤ t.deepDepth →
      Mindmap.validate_mindmap_json t ≠ .ok () ∧
      Mindmap.validate_mindmap_structure t 0 ≠ .ok ()) ∧
    (t.shapeOk = true → t.deepDepth = 11 →
      Mindmap.validate_mindmap_json t = .error Mindmap.maxDepthErr) ∧
    (t.shapeOk = true → t.hasEmptyTitle = false → t.deepDepth = 3 →
      t.count = 10 →
      Mindmap.validate_mindmap_json t = .ok () ∧
      Mindmap.validate_mindmap_structure t 0 = .ok ()) := by
  refine ⟨fun h11 => ⟨fun hok => ?_, fun hok => ?_⟩,
    fun hs h11 => ?_, fun hs _ h3 _ => ⟨?_, ?_⟩⟩
  · have := Mindmap.validate_node_depth_sound t 0 hok
    omega
  · have := Mindmap.validate_structure_depth_sound t 0 hok
    omega
  · exact Mindmap.validate_node_deep_err t 0 hs (by omega)
  · exact Mindmap.validate_node_ok_of_shape t 0 hs (by omega)
  · exact Mindmap.validate_structure_ok_of_shape t 0 hs (by omega)

/-- Witness for C3: the depth-rule theorem applied to a concrete
depth-11 chain and to a concrete well-formed depth-3, 10-node tree. -/
theorem validator_depth_rule_witness :
    Mindmap.validate_mindmap_json (Mindmap.chainNode 11) =
      .error Mindmap.maxDepthErr ∧
    Mindmap.validate_mindmap_json Mindmap.tree10 = .ok () ∧
    Mindmap.validate_mindmap_structure Mindmap.tree10 0 = .ok () :=
  ⟨(validator_depth_rule (Mindmap.chainNode 11)).2.1 (by decide) (by decide),
   ((validator_depth_rule Mindmap.tree10).2.2 (by decide) (by decide)
      (by decide) (by decide)).1,
   ((validator_depth_rule Mindmap.tree10).2.2 (by decide) (by decide)
      (by decide) (by decide)).2⟩

/-- C4 counterexample: the claim says every tree containing a node with
an empty-string title is rejected, but both validators only check
`isinstance(obj["title"], str)`, so a tree whose root title is the
empty string is accepted. -/
theorem validators_accept_empty_title :
    Mindmap.emptyTitleTree.hasEmptyTitle = true ∧
    Mindmap.validate_mindmap_structure Mindmap.emptyTitleTree 0 = .ok () ∧
    Mindmap.validate_mindmap_json Mindmap.emptyTitleTree = .ok () :=
  ⟨rfl, rfl, rfl⟩

/-- C4 amended: the validators accept a node's title exactly when the
`title` field is present and holds a string; any tree containing a node
whose `title` is missing or not a string is rejected (the empty string
is a string, so non-emptiness is not enforced). -/
theorem validator_requires_string_title (t : Mindmap.RNode) :
    t.hasBadTitle = true →
    Mindmap.validate_mindmap_structure t 0 ≠ .ok () ∧
    Mindmap.validate_mindmap_json t ≠ .ok () := by
  intro hbad
  constructor
  · intro hok
    have := Mindmap.validate_structure_title_sound t 0 hok
    rw [this] at hbad
    cases hbad
  · intro hok
    have := Mindmap.validate_node_title_sound t 0 hok
    rw [this] at hbad
    cases hbad

/-- Witness for the C4 amended theorem at a concrete node whose `title`
field is missing. -/
theorem validator_requires_string_title_witness :
    Mindmap.validate_mindmap_structure (Mindmap.RNode.mk none (some .nil)) 0 ≠ .ok () ∧
    Mindmap.validate_mindmap_json (Mindmap.RNode.mk none (some .nil)) ≠ .ok () :=
  validator_requires_string_title (Mindmap.RNode.mk none (some .nil)) rfl

/-- C5: appending a cost entry (token counts are naturals, hence
non-negative) increases the daily spend by exactly
`tokens_input * price_input + tokens_output * price_output` with the
configured per-unit prices; those prices are exactly `0.00000075` and
`0.000003` USD per token, so the `{tokensIn: 1000, tokensOut: 500}`
entry increases the daily spend by exactly
`1000 * 0.00000075 + 500 * 0.000003`. -/
theorem cost_ledger_append_exact (db : List Gemini.APILog)
    (operation status : String) (tokens_input tokens_output latency_ms : Nat)
    (document_id : Option Nat) :
    Gemini.calculate_daily_cost
        (Gemini.log_api_call db operation tokens_input tokens_output
          latency_ms status document_id).1
      = Gemini.calculate_daily_cost db
        + (tokens_input * Gemini.price_input
            + tokens_output * Gemini.price_output) ∧
    Gemini.price_input = 0.00000075 ∧
    Gemini.price_output = 0.000003 ∧
    (1000 : ℚ) * Gemini.price_input + (500 : ℚ) * Gemini.price_output
      = 1000 * 0.00000075 + 500 * 0.000003 := by
  refine ⟨?_, by norm_num [Gemini.price_input],
    by norm_num [Gemini.price_output],
    by norm_num [Gemini.price_input, Gemini.price_output]⟩
  simp [Gemini.log_api_call, Gemini.calculate_daily_cost]

/-- C1 counterexample: with the recorded daily spend at 60 USD, above
the 50 USD daily budget limit, a subsequent summarize request still
issues exactly one remote call and terminates successfully — it is not
failed pre-flight with `QuotaExceeded`; the only budget reaction is the
post-call warning flag. -/
theorem summarize_ignores_exhausted_budget :
    Gemini.DAILY_BUDGET_LIMIT ≤ Gemini.calculate_daily_cost Gemini.db_over_budget ∧
    (Gemini.summarize_flow Gemini.db_over_budget Gemini.okResponse 800 (some 2)).remote_calls = 1 ∧
    (Gemini.summarize_flow Gemini.db_over_budget Gemini.okResponse 800 (some 2)).result
      = .ok "• a\n• b\n• c" ∧
    (Gemini.summarize_flow Gemini.db_over_budget Gemini.okResponse 800 (some 2)).budget_warning
      = true := by
  refine ⟨?_, rfl, rfl, ?_⟩
  · norm_num [Gemini.calculate_daily_cost, Gemini.db_over_budget,
      Gemini.DAILY_BUDGET_LIMIT]
  · show decide _ = true
    rw [decide_eq_true_eq]
    norm_num [Gemini.calculate_daily_cost, Gemini.db_over_budget,
      Gemini.DAILY_BUDGET_LIMIT, Gemini.log_api_call, Gemini.okResponse,
      Gemini.price_input, Gemini.price_output]

/-- C1 amended: the budget is not checked pre-flight.  Every summarize
request issues exactly one remote call whatever the accumulated spend,
and the only budget handling is post-hoc: the warning flag is set
exactly when the call succeeded (and was therefore logged) and the new
daily cost exceeds the limit. -/
theorem summarize_budget_post_hoc (db : List Gemini.APILog)
    (resp : Gemini.RemoteResponse) (latency_ms : Nat) (document_id : Option Nat) :
    (Gemini.summarize_flow db resp latency_ms document_id).remote_calls = 1 ∧
    ((Gemini.summarize_flow db resp latency_ms document_id).budget_warning = true ↔
      ((∃ t, (Gemini.summarize_flow db resp latency_ms document_id).result = .ok t) ∧
        Gemini.DAILY_BUDGET_LIMIT < Gemini.calculate_daily_cost
          (Gemini.summarize_flow db resp latency_ms document_id).db)) := by
  unfold Gemini.summarize_flow Gemini.generate_summary
  by_cases h : Gemini.pyStrip resp.text = ""
  · simp [h]
  · simp [h, Gemini.log_api_call]

/-- Every delay slept by the axios retry loop belongs to retry attempt
`n` with `rc.retries < n ≤ maxRetries` and equals
`retryDelay * 2 ^ (n - 1)`. -/
theorem runRequest_delay_mem (respond : Nat → Except Front.ApiError String) :
    ∀ (fuel : Nat) (rc : Front.RetryConfig) (d : ℚ),
      d ∈ (Front.runRequest respond fuel rc).2 →
      ∃ n, rc.retries < n ∧ n ≤ Front.maxRetries ∧ d = rc.retryDelay * 2 ^ (n - 1)
  | 0, rc, d, hmem => by
    rw [Front.runRequest] at hmem
    cases hr : respond rc.retries with
    | ok v => simp [hr] at hmem
    | error e =>
      simp only [hr] at hmem
      by_cases hsr : Front.shouldRetry (some rc) e = true
      · simp [hsr] at hmem
      · rw [Bool.not_eq_true] at hsr
        simp [hsr] at hmem
  | fuel + 1, rc, d, hmem => by
    rw [Front.runRequest] at hmem
    cases hr : respond rc.retries with
    | ok v => simp [hr] at hmem
    | error e =>
      simp only [hr] at hmem
      by_cases hsr : Front.shouldRetry (some rc) e = true
      · simp only [hsr, if_true] at hmem
        have hlt : rc.retries < Front.maxRetries := by
          by_contra hge
          simp [Front.shouldRetry, Nat.le_of_not_lt hge] at hsr
        rcases List.mem_cons.mp hmem with hhd | htl
        · exact ⟨rc.retries + 1, Nat.lt_succ_self _, hlt,
            by simpa [Front.retryRequestDelay] using hhd⟩
        · obtain ⟨n, h1, h2, h3⟩ :=
            runRequest_delay_mem respond fuel ⟨rc.retries + 1, rc.retryDelay⟩ d htl
          refine ⟨n, ?_, h2, h3⟩
          have h1' : rc.retries + 1 < n := h1
          omega
      · rw [Bool.not_eq_true] at hsr
        simp [hsr] at hmem

/-- Every delay slept by `retry_with_backoff`'s loop belongs to some
attempt `a` of the processed attempt list with `a ≠ max_retries - 1`
and equals `base_delay * 2 ^ a` plus that attempt's jitter sample. -/
theorem retryLoop_delay_mem (func : Nat → Except Retry.PyErr String)
    (mr : Nat) (j : Nat → ℚ) :
    ∀ (l : List Nat) (d : ℚ), d ∈ (Retry.retryLoop func mr j l).2 →
      ∃ a, a ∈ l ∧ a ≠ mr - 1 ∧ d = Retry.base_delay * 2 ^ a + j a
  | [], d, h => by simp [Retry.retryLoop] at h
  | a :: rest, d, h => by
    rw [Retry.retryLoop] at h
    cases hf : func a with
    | ok v => simp [hf] at h
    | error e =>
      simp only [hf] at h
      by_cases hc : Retry.caughtRetryable e = true
      · simp only [hc, if_true] at h
        by_cases hl : a = mr - 1
        · simp [hl] at h
        · simp only [hl, if_false, reduceIte] at h
          rcases List.mem_cons.mp h with hhd | htl
          · exact ⟨a, List.mem_cons_self a rest, hl, hhd⟩
          · obtain ⟨b, hb1, hb2, hb3⟩ := retryLoop_delay_mem func mr j rest d htl
            exact ⟨b, List.mem_cons_of_mem a hb1, hb2, hb3⟩
      · rw [Bool.not_eq_true] at hc
        simp [hc] at h

/-- When the axios retry loop rejects, the surfaced error is literally
one of the errors the requests produced (its kind is preserved). -/
theorem runRequest_error_surfaced (respond : Nat → Except Front.ApiError String) :
    ∀ (fuel : Nat) (rc : Front.RetryConfig) (e : Front.ApiError),
      (Front.runRequest respond fuel rc).1 = .error e → ∃ k, respond k = .error e
  | 0, rc, e, h => by
    rw [Front.runRequest] at h
    cases hr : respond rc.retries with
    | ok v => simp [hr] at h
    | error e0 =>
      simp only [hr] at h
      by_cases hsr : Front.shouldRetry (some rc) e0 = true
      · simp only [hsr, if_true] at h
        exact ⟨rc.retries, by rw [hr]; exact h⟩
      · rw [Bool.not_eq_true] at hsr
        simp only [hsr, if_false, reduceIte] at h
        exact ⟨rc.retries, by rw [hr]; exact h⟩
  | fuel + 1, rc, e, h => by
    rw [Front.runRequest] at h
    cases hr : respond rc.retries with
    | ok v => simp [hr] at h
    | error e0 =>
      simp only [hr] at h
      by_cases hsr : Front.shouldRetry (some rc) e0 = true
      · simp only [hsr, if_true] at h
        exact runRequest_error_surfaced respond fuel ⟨rc.retries + 1, rc.retryDelay⟩ e h
      · rw [Bool.not_eq_true] at hsr
        simp only [hsr, if_false, reduceIte] at h
        exact ⟨rc.retries, by rw [hr]; exact h⟩

/-- When every attempt fails with an error caught by the retryable
`except` clause, `retry_with_backoff` at the default `max_retries = 3`
terminates with a `GeminiAPIError` wrapping the message of the last
attempt's error — not with that error itself. -/
theorem retry3_wraps_last_error (func : Nat → Except Retry.PyErr String)
    (j : Nat → ℚ)
    (h : ∀ a, a < 3 → ∃ e, func a = .error e ∧ Retry.caughtRetryable e = true) :
    ∃ e2, func 2 = .error e2 ∧
      (Retry.retry_with_backoff func 3 j).1
        = some (.error (.geminiAPIError
            ("Failed after " ++ toString 3 ++ " retries: " ++ Retry.pyStr e2))) := by
  obtain ⟨e0, hf0, hc0⟩ := h 0 (by omega)
  obtain ⟨e1, hf1, hc1⟩ := h 1 (by omega)
  obtain ⟨e2, hf2, hc2⟩ := h 2 (by omega)
  refine ⟨e2, hf2, ?_⟩
  have hrange : List.range 3 = [0, 1, 2] := rfl
  unfold Retry.retry_with_backoff
  rw [hrange]
  simp [Retry.retryLoop, hf0, hf1, hf2, hc0, hc1, hc2]

/-- C6: the delay before retry attempt `n` (1-indexed) equals
`min(initialDelay * base^(n-1), maxDelay)` with the defaults
`initialDelay = 1s, base = 2, maxDelay = 60s`, plus at most a full
window of optional jitter.  Frontend (`retryRequest`, milliseconds, no
jitter): every slept delay is `1000 * 2^(n-1) = min(1000 * 2^(n-1),
60000)` ms for some retry attempt `1 ≤ n ≤ maxRetries`, and the
successive delays of a run that retries to exhaustion are exactly
1s, 2s, 4s.  Backend (`retry_with_backoff`, seconds, jitter in [0,1]):
every slept delay is `min(base_delay * 2^(n-1), 60) + jitter` with the
jitter at most the full deterministic window. -/
theorem retry_backoff_formula :
    (∀ (respond : Nat → Except Front.ApiError String) (fuel : Nat) (d : ℚ),
      d ∈ (Front.runRequest respond fuel Front.initialRetryConfig).2 →
      ∃ n, 1 ≤ n ∧ n ≤ Front.maxRetries ∧
        d = min ((1000 : ℚ) * 2 ^ (n - 1)) 60000 ∧
        d = (1000 : ℚ) * 2 ^ (n - 1)) ∧
    (Front.runRequest Front.alwaysRateLimitedReq Front.maxRetries
        Front.initialRetryConfig).2 = [1000, 2000, 4000] ∧
    (∀ (func : Nat → Except Retry.PyErr String) (j : Nat → ℚ) (d : ℚ),
      (∀ a, 0 ≤ j a ∧ j a ≤ 1) →
      d ∈ (Retry.retry_with_backoff func 3 j).2 →
      ∃ n, 1 ≤ n ∧ n ≤ 2 ∧
        d = min (Retry.base_delay * 2 ^ (n - 1)) 60 + j (n - 1) ∧
        j (n - 1) ≤ min (Retry.base_delay * 2 ^ (n - 1)) 60) := by
  refine ⟨?_, ?_, ?_⟩
  · intro respond fuel d hmem
    obtain ⟨n, h1, h2, h3⟩ := runRequest_delay_mem respond fuel Front.initialRetryConfig d hmem
    have h1' : 0 < n := h1
    refine ⟨n, h1', h2, ?_, ?_⟩
    · rw [h3]
      show Front.initialRetryConfig.retryDelay * 2 ^ (n - 1) = _
      have h2' : n ≤ 3 := h2
      interval_cases n <;> norm_num [Front.initialRetryConfig]
    · exact h3
  · norm_num [Front.runRequest, Front.alwaysRateLimitedReq, Front.initialRetryConfig,
      Front.shouldRetry, Front.maxRetries, Front.retryRequestDelay]
  · intro func j d hj hmem
    obtain ⟨a, hal, hane, hd⟩ := retryLoop_delay_mem func 3 j (List.range 3) d hmem
    have ha3 : a < 3 := List.mem_range.mp hal
    have ha : a ≤ 1 := by omega
    refine ⟨a + 1, by omega, by omega, ?_, ?_⟩
    · simpa using hd.trans (by
        congr 1
        interval_cases a <;> norm_num [Retry.base_delay])
    · simp only [Nat.add_sub_cancel]
      have := (hj a).2
      interval_cases a <;> simp [Retry.base_delay] <;>
        first
        | (constructor <;> linarith)
        | linarith
  
/-- Witness for C6: the backoff-formula theorem applied to the concrete
always-failing request at concrete delays, for both the frontend loop
(delay 1000 ms, attempt budget 3) and the backend helper with zero
jitter (delay 1 s). -/
theorem retry_backoff_formula_witness :
    (∃ n, 1 ≤ n ∧ n ≤ Front.maxRetries ∧
      (1000 : ℚ) = min ((1000 : ℚ) * 2 ^ (n - 1)) 60000 ∧
      (1000 : ℚ) = (1000 : ℚ) * 2 ^ (n - 1)) ∧
    (∃ n, 1 ≤ n ∧ n ≤ 2 ∧
      (1 : ℚ) = min (Retry.base_delay * 2 ^ (n - 1)) 60 + (fun _ => (0 : ℚ)) (n - 1) ∧
      (fun _ => (0 : ℚ)) (n - 1) ≤ min (Retry.base_delay * 2 ^ (n - 1)) 60) := by
  constructor
  · obtain ⟨n, h1, h2, h3, h4⟩ := retry_backoff_formula.1 Front.alwaysRateLimitedReq
      Front.maxRetries 1000
      (by rw [retry_backoff_formula.2.1]; simp)
    exact ⟨n, h1, h2, h3, h4⟩
  · obtain ⟨n, h1, h2, h3, h4⟩ := retry_backoff_formula.2.2 Retry.alwaysRateLimited
      (fun _ => (0 : ℚ)) 1 (fun a => by norm_num)
      (by
        show (1 : ℚ) ∈ (Retry.retryLoop Retry.alwaysRateLimited 3 (fun _ => 0) (List.range 3)).2
        have hrange : List.range 3 = [0, 1, 2] := rfl
        rw [hrange]
        norm_num [Retry.retryLoop, Retry.alwaysRateLimited, Retry.caughtRetryable,
          Retry.base_delay])
    exact ⟨n, h1, h2, h3, h4⟩

/-- C7 counterexample: a request whose remote call fails with a
retryable `RateLimitError` on all 3 attempts terminates, in the backend
retry helper, in a generic `GeminiAPIError` — a different kind than the
last retryable error — contradicting the claim that the kind is
preserved. -/
theorem retry_exhaustion_replaces_kind :
    (Retry.retry_with_backoff Retry.alwaysRateLimited 3 (fun _ => 0)).1
      = some (.error (.geminiAPIError "Failed after 3 retries: 429")) ∧
    Retry.errKind (.geminiAPIError "Failed after 3 retries: 429")
      ≠ Retry.errKind (.rateLimitError "429") :=
  ⟨rfl, by decide⟩

/-- C7 amended: when retries are exhausted, the frontend axios client
does surface the last error itself (same kind), while the backend
`retry_with_backoff` replaces it: with every attempt failing on a
caught retryable error, it terminates in a `GeminiAPIError` that wraps
only the last error's message. -/
theorem retry_error_kind_surfacing :
    (∀ (respond : Nat → Except Front.ApiError String) (fuel : Nat)
        (rc : Front.RetryConfig) (e : Front.ApiError),
      (Front.runRequest respond fuel rc).1 = .error e → ∃ k, respond k = .error e) ∧
    (∀ (func : Nat → Except Retry.PyErr String) (j : Nat → ℚ),
      (∀ a, a < 3 → ∃ e, func a = .error e ∧ Retry.caughtRetryable e = true) →
      ∃ e2, func 2 = .error e2 ∧
        (Retry.retry_with_backoff func 3 j).1
          = some (.error (.geminiAPIError
              ("Failed after " ++ toString 3 ++ " retries: " ++ Retry.pyStr e2)))) :=
  ⟨runRequest_error_surfaced, retry3_wraps_last_error⟩

/-- Witness for the C7 amended theorem: the frontend loop surfaces the
concrete rate-limit error of the always-failing request, and the
backend helper wraps the concrete last error. -/
theorem retry_error_kind_surfacing_witness :
    (∃ k, Front.alwaysRateLimitedReq k
      = .error ⟨.RATE_LIMITED, "Too many requests, please try again later", true⟩) ∧
    (∃ e2, Retry.alwaysRateLimited 2 = .error e2 ∧
      (Retry.retry_with_backoff Retry.alwaysRateLimited 3 (fun _ => 0)).1
        = some (.error (.geminiAPIError
            ("Failed after " ++ toString 3 ++ " retries: " ++ Retry.pyStr e2)))) :=
  ⟨retry_error_kind_surfacing.1 Front.alwaysRateLimitedReq 3 Front.initialRetryConfig
      ⟨.RATE_LIMITED, "Too many requests, please try again later", true⟩ rfl,
   retry_error_kind_surfacing.2 Retry.alwaysRateLimited (fun _ => 0)
      (fun _ _ => ⟨.rateLimitError "429", rfl, rfl⟩)⟩

/-- C8: on the closed taxonomy, the retryability classification is as
claimed — `RATE_LIMITED`, `TIMEOUT` and `API_ERROR` (the transient
service error) are retryable, while `AUTH_ERROR`, `QUOTA_EXCEEDED` and
`VALIDATION_ERROR` are not — and the `isRetryable` flag carried by the
formatted terminal failures (`ERROR_MESSAGES`) agrees with
`isRetryableError` on each of those six kinds. -/
theorem error_classification_consistent :
    Front.isRetryableError .RATE_LIMITED = true ∧
    Front.isRetryableError .TIMEOUT = true ∧
    Front.isRetryableError .API_ERROR = true ∧
    Front.isRetryableError .AUTH_ERROR = false ∧
    Front.isRetryableError .QUOTA_EXCEEDED = false ∧
    Front.isRetryableError .VALIDATION_ERROR = false ∧
    (Front.ERROR_MESSAGES .RATE_LIMITED).map (fun m => m.retryable) = some true ∧
    (Front.ERROR_MESSAGES .TIMEOUT).map (fun m => m.retryable) = some true ∧
    (Front.ERROR_MESSAGES .API_ERROR).map (fun m => m.retryable) = some true ∧
    (Front.ERROR_MESSAGES .AUTH_ERROR).map (fun m => m.retryable) = some false ∧
    (Front.ERROR_MESSAGES .QUOTA_EXCEEDED).map (fun m => m.retryable) = some false ∧
    (Front.ERROR_MESSAGES .VALIDATION_ERROR).map (fun m => m.retryable) = some false :=
  ⟨rfl, rfl, rfl, rfl, rfl, rfl, rfl, rfl, rfl, rfl, rfl, rfl⟩

/-- C10: after `deleteDocument(id)`, the documents list contains no
document with that id; the remaining documents are exactly the
documents whose id differs, unchanged and in their original order; and
`currentDocument` is set to `null` exactly when its id equals the
deleted id (otherwise it is unchanged, and a `null` current document
stays `null`). -/
theorem delete_document_spec (s : Store.DocumentState) (id : Int) :
    (∀ d ∈ (Store.deleteDocument s id).documents, d.id ≠ id) ∧
    ((Store.deleteDocument s id).documents.Sublist s.documents) ∧
    (∀ d ∈ s.documents, d.id ≠ id → d ∈ (Store.deleteDocument s id).documents) ∧
    (∀ c, s.currentDocument = some c → c.id = id →
      (Store.deleteDocument s id).currentDocument = none) ∧
    (∀ c, s.currentDocument = some c → c.id ≠ id →
      (Store.deleteDocument s id).currentDocument = some c) ∧
    (s.currentDocument = none → (Store.deleteDocument s id).currentDocument = none) := by
  refine ⟨?_, ?_, ?_, ?_, ?_, ?_⟩
  · intro d hd
    have := List.of_mem_filter hd
    simpa [bne_iff_ne] using this
  · exact List.filter_sublist _
  · intro d hd hne
    exact List.mem_filter.mpr ⟨hd, by simpa [bne_iff_ne] using hne⟩
  · intro c hc hcid
    simp [Store.deleteDocument, hc, hcid]
  · intro c hc hcid
    simp [Store.deleteDocument, hc, hcid]
  · intro hc
    simp [Store.deleteDocument, hc]

/-- Witness for C10: deleting document 1 from a concrete two-document
store whose current document is document 1 clears the current document
and keeps document 2. -/
theorem delete_document_spec_witness :
    (Store.deleteDocument Store.sampleState 1).currentDocument = none ∧
    Store.sampleDoc 2 ∈ (Store.deleteDocument Store.sampleState 1).documents ∧
    (∀ d ∈ (Store.deleteDocument Store.sampleState 1).documents, d.id ≠ 1) :=
  ⟨(delete_document_spec Store.sampleState 1).2.2.2.1 (Store.sampleDoc 1) rfl rfl,
   (delete_document_spec Store.sampleState 1).2.2.1 (Store.sampleDoc 2)
      (by simp [Store.sampleState]) (by simp [Store.sampleDoc]),
   (delete_document_spec Store.sampleState 1).1⟩

namespace RateLimiter

/-- Filtering with a weaker predicate keeps at least as many elements. -/
theorem filter_length_mono (l : List ℚ) (p q : ℚ → Bool)
    (h : ∀ x ∈ l, p x = true → q x = true) :
    (l.filter p).length ≤ (l.filter q).length := by
  induction l with
  | nil => simp
  | cons x xs ih =>
    have ih' := ih (fun y hy hp => h y (List.mem_cons_of_mem x hy) hp)
    simp only [List.filter]
    cases hp : p x
    · cases hq : q x
      · exact ih'
      · simpa using Nat.le_succ_of_le ih'
    · rw [h x (List.mem_cons_self x xs) hp]
      simpa using ih'

/-- The pruning filter keeps exactly the timestamps above the cutoff
`now - 60`. -/
theorem prune_eq_cutoff (st : List ℚ) (now : ℚ) :
    prune st now = st.filter (fun t => decide (now - 60 < t)) := by
  unfold prune
  refine List.filter_congr (fun x _ => ?_)
  rw [decide_eq_decide]
  constructor <;> intro <;> linarith

/-- A sorted list splits into the elements at most `c` followed by the
elements above `c`. -/
theorem sorted_split_at (c : ℚ) :
    ∀ (l : List ℚ), l.Sorted (· ≤ ·) →
      l = l.filter (fun t => decide (t ≤ c)) ++ l.filter (fun t => decide (c < t))
  | [], _ => rfl
  | x :: xs, hs => by
    rw [List.sorted_cons] at hs
    have ih := sorted_split_at c xs hs.2
    by_cases hx : x ≤ c
    · simp only [List.filter, decide_eq_true_eq, hx, not_lt.mpr hx]
      simpa [hx, not_lt.mpr hx] using congrArg (List.cons x) ih
    · push_neg at hx
      have hall : ∀ y ∈ xs, ¬ y ≤ c := fun y hy => by
        have := hs.1 y hy
        push_neg
        linarith
      have h1 : List.filter (fun t => decide (t ≤ c)) (x :: xs) = [] := by
        rw [List.filter_eq_nil_iff]
        intro a ha
        rcases List.mem_cons.mp ha with rfl | ha
        · simpa using hx.not_le
        · simpa using hall a ha
      have h2 : List.filter (fun t => decide (c < t)) (x :: xs) = x :: xs := by
        rw [List.filter_eq_self]
        intro a ha
        rcases List.mem_cons.mp ha with rfl | ha
        · simpa using hx
        · have := hall a ha
          simp only [decide_eq_true_eq]
          push_neg at this
          linarith
      rw [h1, h2]
      rfl

/-- Appending one grant adds at most one to any window count. -/
theorem countInWindow_append_one (G : List ℚ) (g t : ℚ) :
    countInWindow (G ++ [g]) t
      = countInWindow G t
        + (if (decide (t - 60 < g) && decide (g ≤ t)) = true then 1 else 0) := by
  unfold countInWindow
  rw [List.filter_append, List.length_append]
  congr 1
  by_cases h : (decide (t - 60 < g) && decide (g ≤ t)) = true <;> simp [h]

end RateLimiter

namespace RateLimiter

/-- Window bound after appending one grant `g ≥ now`: windows not
containing `g` are bounded by the old invariant, and for windows
containing `g` the expired `dropped` part contributes nothing, so the
bound reduces to a bound on the live state. -/
theorem window_step_bound (rpm : Nat) (st G dropped : List ℚ) (tdone now g : ℚ)
    (hG : G = dropped ++ st) (hdrop : ∀ x ∈ dropped, x ≤ tdone - 60)
    (hseq : tdone ≤ now) (hgnow : now ≤ g)
    (hwinG : ∀ t, countInWindow G t ≤ rpm)
    (hbound : ∀ t, g ≤ t → t - 60 < g →
      (st.filter (fun y => decide (t - 60 < y) && decide (y ≤ t))).length + 1 ≤ rpm) :
    ∀ t, countInWindow (G ++ [g]) t ≤ rpm := by
  intro t
  rw [countInWindow_append_one]
  by_cases hgt : (decide (t - 60 < g) && decide (g ≤ t)) = true
  · rw [if_pos hgt]
    simp only [Bool.and_eq_true, decide_eq_true_eq] at hgt
    have hdropnil :
        dropped.filter (fun y => decide (t - 60 < y) && decide (y ≤ t)) = [] := by
      rw [List.filter_eq_nil_iff]
      intro a ha
      have h1 := hdrop a ha
      simp only [Bool.and_eq_true, decide_eq_true_eq, not_and]
      intro h2
      have : t - 60 ≥ g - 60 := by linarith [hgt.2]
      linarith
    have hGt : countInWindow G t
        = (st.filter (fun y => decide (t - 60 < y) && decide (y ≤ t))).length := by
      unfold countInWindow
      rw [hG, List.filter_append, hdropnil]
      simp
    rw [hGt]
    exact hbound t hgt.2 hgt.1
  · rw [if_neg hgt]
    simpa using hwinG t

/-- One sequentially executed `acquire` preserves the run invariant,
and its grant time is no earlier than the call time. -/
theorem acquire_step (rpm : Nat) (hrpm : 1 ≤ rpm) (st G : List ℚ) (tdone now : ℚ)
    (hinv : Inv rpm st G tdone) (hseq : tdone ≤ now) :
    Inv rpm (acquire rpm st now).2 (G ++ [(acquire rpm st now).1])
      (acquire rpm st now).1 ∧
    now ≤ (acquire rpm st now).1 := by
  obtain ⟨hsort, hble, ⟨dropped, hG, hdrop⟩, hwin⟩ := hinv
  have hPmem : ∀ x ∈ prune st now, x ∈ st ∧ now - x < 60 := by
    intro x hx
    have h := List.mem_filter.mp hx
    exact ⟨h.1, by simpa using h.2⟩
  have hPsorted : (prune st now).Sorted (· ≤ ·) := hsort.filter _
  have hstSplit : st = st.filter (fun t => decide (t ≤ now - 60)) ++ prune st now := by
    rw [prune_eq_cutoff]
    exact sorted_split_at (now - 60) st hsort
  have hstDle : ∀ x ∈ st.filter (fun t => decide (t ≤ now - 60)), x ≤ now - 60 :=
    fun x hx => by simpa using (List.mem_filter.mp hx).2
  have hcount_now : countInWindow G now = (prune st now).length := by
    unfold countInWindow
    rw [hG, List.filter_append]
    have hd0 : dropped.filter (fun x => decide (now - 60 < x) && decide (x ≤ now)) = [] := by
      rw [List.filter_eq_nil_iff]
      intro a ha
      have := hdrop a ha
      simp only [Bool.and_eq_true, decide_eq_true_eq, not_and]
      intro h1
      linarith
    have hst : st.filter (fun x => decide (now - 60 < x) && decide (x ≤ now))
        = prune st now := by
      rw [prune_eq_cutoff]
      refine List.filter_congr (fun x hx => ?_)
      have hx2 : x ≤ now := le_trans (hble x hx) hseq
      simp [hx2]
    rw [hd0, hst]
    simp
  have hPle_rpm : (prune st now).length ≤ rpm := hcount_now ▸ hwin now
  by_cases hlen : rpm ≤ (prune st now).length
  · -- wait branch: at capacity, grant = oldest + 60
    obtain ⟨x, xs, hPx⟩ : ∃ x xs, prune st now = x :: xs := by
      cases hP : prune st now with
      | nil => rw [hP] at hlen; simp at hlen; omega
      | cons a l => exact ⟨a, l, rfl⟩
    have hheadD : (prune st now).headD 0 = x := by rw [hPx]; rfl
    have hxP : x ∈ prune st now := by rw [hPx]; exact List.mem_cons_self x xs
    have hxst : x ∈ st := (hPmem x hxP).1
    have hxwin : now - x < 60 := (hPmem x hxP).2
    have hxle : x ≤ now := le_trans (hble x hxst) hseq
    have hacq : acquire rpm st now
        = (now + (60 - (now - x)), prune st now ++ [now + (60 - (now - x))]) := by
      unfold acquire
      rw [if_pos hlen, hheadD]
    have hgval : now + (60 - (now - x)) = x + 60 := by ring
    rw [hacq, hgval]
    dsimp only
    have hgnow : now ≤ x + 60 := by linarith
    have htd : tdone ≤ x + 60 := le_trans hseq hgnow
    refine ⟨⟨?_, ?_, ?_, ?_⟩, hgnow⟩
    · -- sortedness of the new state
      refine List.pairwise_append.mpr ⟨hPsorted, by simp, ?_⟩
      intro a ha b hb
      rw [List.mem_singleton] at hb
      subst hb
      have := hble a (hPmem a ha).1
      linarith
    · intro y hy
      rcases List.mem_append.mp hy with hy | hy
      · have := hble y (hPmem y hy).1
        linarith
      · rw [List.mem_singleton] at hy
        subst hy
        exact le_refl _
    · refine ⟨dropped ++ st.filter (fun t => decide (t ≤ now - 60)), ?_, ?_⟩
      · rw [hG]
        conv_lhs => rw [hstSplit]
        simp [List.append_assoc]
      · intro y hy
        rcases List.mem_append.mp hy with hy | hy
        · have := hdrop y hy
          linarith
        · have := hstDle y hy
          linarith
    · refine window_step_bound rpm st G dropped tdone now (x + 60) hG hdrop hseq hgnow hwin ?_
      intro t hgt1 hgt2
      have hxt : x ≤ t - 60 := by linarith
      have hmono1 : (st.filter (fun y => decide (t - 60 < y) && decide (y ≤ t))).length
          ≤ ((prune st now).filter (fun y => decide (x < y))).length := by
        rw [prune_eq_cutoff, List.filter_filter]
        refine filter_length_mono st _ _ (fun y hy hp => ?_)
        simp only [Bool.and_eq_true, decide_eq_true_eq] at hp ⊢
        have hyle : y ≤ now := le_trans (hble y hy) hseq
        constructor
        · linarith [hp.1]
        · linarith [hp.1]
      have hdropx : ((prune st now).filter (fun y => decide (x < y))).length + 1
          ≤ (prune st now).length := by
        rw [hPx]
        simp only [List.filter]
        rw [show decide (x < x) = false from by simp]
        have := List.length_filter_le (fun y => decide (x < y)) xs
        simpa using Nat.add_le_add_right this 1
      omega
  · -- fast branch: below capacity, grant = now
    have hacq : acquire rpm st now = (now, prune st now ++ [now]) := by
      unfold acquire
      rw [if_neg hlen]
    rw [hacq]
    dsimp only
    have hlt : (prune st now).length < rpm := not_le.mp hlen
    refine ⟨⟨?_, ?_, ?_, ?_⟩, le_refl now⟩
    · refine List.pairwise_append.mpr ⟨hPsorted, by simp, ?_⟩
      intro a ha b hb
      rw [List.mem_singleton] at hb
      subst hb
      exact le_trans (hble a (hPmem a ha).1) hseq
    · intro y hy
      rcases List.mem_append.mp hy with hy | hy
      · exact le_trans (hble y (hPmem y hy).1) hseq
      · rw [List.mem_singleton] at hy
        subst hy
        exact le_refl _
    · refine ⟨dropped ++ st.filter (fun t => decide (t ≤ now - 60)), ?_, ?_⟩
      · rw [hG]
        conv_lhs => rw [hstSplit]
        simp [List.append_assoc]
      · intro y hy
        rcases List.mem_append.mp hy with hy | hy
        · have := hdrop y hy
          linarith
        · have := hstDle y hy
          linarith
    · refine window_step_bound rpm st G dropped tdone now now hG hdrop hseq (le_refl now) hwin ?_
      intro t hgt1 hgt2
      have hmono1 : (st.filter (fun y => decide (t - 60 < y) && decide (y ≤ t))).length
          ≤ (prune st now).length := by
        rw [prune_eq_cutoff]
        refine filter_length_mono st _ _ (fun y hy hp => ?_)
        simp only [Bool.and_eq_true, decide_eq_true_eq] at hp ⊢
        linarith [hp.1]
      omega

end RateLimiter

namespace RateLimiter

/-- Over any admissible sequential run, the invariant propagates and
every 60-second window of the produced grant history holds at most
`rpm` grants. -/
theorem runAcquires_window_bound (rpm : Nat) (hrpm : 1 ≤ rpm) :
    ∀ (calls st G : List ℚ) (tdone : ℚ),
      Inv rpm st G tdone → admissibleFrom rpm st tdone calls = true →
      ∀ t, countInWindow (G ++ runAcquires rpm st calls) t ≤ rpm
  | [], st, G, tdone, hinv, _, t => by
    simpa [runAcquires] using hinv.2.2.2 t
  | now :: rest, st, G, tdone, hinv, hadm, t => by
    rw [admissibleFrom] at hadm
    rw [Bool.and_eq_true, decide_eq_true_eq] at hadm
    have hstep := acquire_step rpm hrpm st G tdone now hinv hadm.1
    have hrec := runAcquires_window_bound rpm hrpm rest (acquire rpm st now).2
      (G ++ [(acquire rpm st now).1]) (acquire rpm st now).1 hstep.1 hadm.2 t
    rw [runAcquires]
    rw [show G ++ ((acquire rpm st now).1 :: runAcquires rpm (acquire rpm st now).2 rest)
        = (G ++ [(acquire rpm st now).1]) ++ runAcquires rpm (acquire rpm st now).2 rest
      by simp]
    exact hrec

end RateLimiter

/-- C9: with window capacity `rpm ≥ 1`, any admissible sequential run
of `acquire` calls never grants more than `rpm` permits inside any
window of length 60 seconds; moreover, whenever a call finds the pruned
request list at capacity it blocks for exactly
`60 - (now - oldest)` — the window size minus the age of the oldest
recorded request — so its permit is granted at `oldest + 60`. -/
theorem rate_limiter_window_bound (rpm : Nat) (hrpm : 1 ≤ rpm)
    (calls : List ℚ) (hadm : RateLimiter.admissible rpm calls = true) :
    (∀ t, RateLimiter.countInWindow (RateLimiter.runAcquires rpm [] calls) t ≤ rpm) ∧
    (∀ (st : List ℚ) (now : ℚ), rpm ≤ (RateLimiter.prune st now).length →
      (RateLimiter.acquire rpm st now).1
          = now + (60 - (now - (RateLimiter.prune st now).headD 0)) ∧
      (RateLimiter.acquire rpm st now).1
          = (RateLimiter.prune st now).headD 0 + 60) := by
  constructor
  · intro t
    cases calls with
    | nil => simp [RateLimiter.runAcquires, RateLimiter.countInWindow]
    | cons now rest =>
      have hadm' : RateLimiter.admissibleFrom rpm [] now (now :: rest) = true := hadm
      have hinv : RateLimiter.Inv rpm [] [] now := by
        refine ⟨List.sorted_nil, by simp, ⟨[], rfl, by simp⟩, ?_⟩
        intro t
        simp [RateLimiter.countInWindow]
      have := RateLimiter.runAcquires_window_bound rpm hrpm (now :: rest) [] [] now
        hinv hadm' t
      simpa using this
  · intro st now hlen
    constructor
    · unfold RateLimiter.acquire
      rw [if_pos hlen]
    · unfold RateLimiter.acquire
      rw [if_pos hlen]
      ring

/-- Witness for C9: a run with capacity 1 and two calls at time 0 — the
first is granted immediately, the window holds at most one grant, and
the second call, finding the window full, is granted exactly at
`oldest + 60 = 60`. -/
theorem rate_limiter_window_bound_witness :
    RateLimiter.countInWindow (RateLimiter.runAcquires 1 [] [(0 : ℚ), 0]) 60 ≤ 1 ∧
    (RateLimiter.acquire 1 [(0 : ℚ)] 0).1 = ((RateLimiter.prune [(0 : ℚ)] 0).headD 0) + 60 := by
  have hadm : RateLimiter.admissible 1 [(0 : ℚ), 0] = true := by
    norm_num [RateLimiter.admissible, RateLimiter.admissibleFrom, RateLimiter.acquire,
      RateLimiter.prune]
  have h := rate_limiter_window_bound 1 (le_refl 1) [(0 : ℚ), 0] hadm
  refine ⟨h.1 60, (h.2 [(0 : ℚ)] 0 ?_).2⟩
  norm_num [RateLimiter.prune]
